import Mathlib

/-!
Shallow embedding of the optimistic-conflict resolution engine of
vscode-janus-debug (src/helpers.ts): the per-script resolver `askForUpload`,
the batch coordinator `ensureForceUpload`, and the hash-cache functions
`readHashValues` and `updateHashValues`.

Strings are Lean `String`s; the JavaScript string operations
`trim`/`split`/`join` used by the cache code are modelled at the
character-list level (`trimChars`, `splitOnChar`, `joinLines`).
`undefined` string fields are modelled as `Option String` with `none`.
JavaScript object identity of the mutable script records is modelled by
tagging each script with its input position (a `Nat`).
-/

/-- Script record: the fields of `nodeDoc.scriptT` that this engine reads or
writes.  `lastSyncHash = none` models the JavaScript `undefined`. -/
structure ScriptT where
  name : String
  conflict : Bool
  conflictMode : Bool
  lastSyncHash : Option String
  forceUpload : Bool
deriving DecidableEq, Repr

def FORCE_UPLOAD_YES : String := "Yes"

def FORCE_UPLOAD_NO : String := "No"

def FORCE_UPLOAD_ALL : String := "Yes (remember my answer for this operation)"

def FORCE_UPLOAD_NONE : String := "No (remember my answer for this operation)"

def NO_CONFLICT : String := "No conflict"

/-- JavaScript truthiness of the optional string `script.lastSyncHash`:
`undefined` and the empty string are falsy. -/
def jsTruthy : Option String → Bool
  | none => false
  | some s => !(s == "")

/-- askForUpload (helpers.ts:55-81).  `pick` is the value the quick pick
would resolve with if it were shown (`none` models dismissal, i.e. the
quick pick resolving with `undefined`).  First component: the resolved
value.  Second component: the prompt (question, offered answers) if one
was shown, `none` if no prompt was shown. -/
def askForUpload (script : ScriptT) (all nonePol singlescript : Bool)
    (pick : Option String) : Option String × Option (String × List String) :=
  if script.conflict ∨ ¬ jsTruthy script.lastSyncHash then
    if all then (some FORCE_UPLOAD_ALL, none)
    else if nonePol then (some FORCE_UPLOAD_NONE, none)
    else
      let question :=
        if jsTruthy script.lastSyncHash then
          script.name ++ " has been changed on server, upload anyway?"
        else
          script.name ++ " might have been changed on server, upload anyway?"
      let answers :=
        if ¬ singlescript then
          [FORCE_UPLOAD_YES, FORCE_UPLOAD_NO, FORCE_UPLOAD_ALL, FORCE_UPLOAD_NONE]
        else [FORCE_UPLOAD_YES, FORCE_UPLOAD_NO]
      (pick, some (question, answers))
  else (some NO_CONFLICT, none)

/-- State threaded through `ensureForceUpload`'s sequential reduce loop
(helpers.ts:92-125).  The two output lists and the two policy flags `all`
and `none`; `prompted` records the input positions of the scripts for
which a prompt was shown, in order. -/
structure BatchState where
  noConflict : List (Nat × ScriptT)
  forceUpload : List (Nat × ScriptT)
  allFlag : Bool
  noneFlag : Bool
  prompted : List Nat
deriving DecidableEq, Repr

/-- The in-place mutation `script.forceUpload = true; script.conflict = false`
performed on a script routed to the forceUpload set. -/
def forcedScript (s : ScriptT) : ScriptT :=
  { s with forceUpload := true, conflict := false }

/-- One iteration of the reduce loop in `ensureForceUpload`
(helpers.ts:100-121).  The item is (input position, script, quick-pick
outcome if prompted). -/
def uploadStep (singlescript : Bool) (st : BatchState)
    (item : Nat × ScriptT × Option String) : BatchState :=
  let res := askForUpload item.2.1 st.allFlag st.noneFlag singlescript item.2.2
  let st1 := { st with prompted := st.prompted ++ (if res.2.isSome then [item.1] else []) }
  if res.1 = some NO_CONFLICT then
    { st1 with noConflict := st1.noConflict ++ [(item.1, item.2.1)] }
  else if res.1 = some FORCE_UPLOAD_ALL then
    { st1 with forceUpload := st1.forceUpload ++ [(item.1, forcedScript item.2.1)],
               allFlag := true }
  else if res.1 = some FORCE_UPLOAD_YES then
    { st1 with forceUpload := st1.forceUpload ++ [(item.1, forcedScript item.2.1)] }
  else if res.1 = some FORCE_UPLOAD_NO then st1
  else { st1 with noneFlag := true }

def initBatch : BatchState := ⟨[], [], false, false, []⟩

/-- ensureForceUpload (helpers.ts:92-125): fold the resolver over the
scripts in input order, starting from both policy flags false.  Each input
script is paired with the answer the user would give if prompted. -/
def ensureForceUpload (scripts : List (ScriptT × Option String)) : BatchState :=
  List.foldl (uploadStep (scripts.length == 1)) initBatch scripts.enum

/-! ## Character-level models of the JavaScript string operations -/

/-- The characters stripped by JavaScript `String.prototype.trim`: the
ECMAScript WhiteSpace code points (TAB, VT, FF, FEFF and the Zs category)
together with the LineTerminator code points (LF, CR, U+2028, U+2029). -/
def isWsChar (c : Char) : Bool :=
  c == ' ' || c == '\t' || c == '\n' || c == '\r' ||
  c == '\u000B' || c == '\u000C' || c == '\u00A0' || c == '\uFEFF' ||
  c == '\u1680' || (0x2000 ≤ c.toNat && c.toNat ≤ 0x200A) ||
  c == '\u2028' || c == '\u2029' || c == '\u202F' || c == '\u205F' || c == '\u3000'

/-- JavaScript `String.prototype.trim` on a character list. -/
def trimChars (l : List Char) : List Char :=
  ((l.dropWhile isWsChar).reverse.dropWhile isWsChar).reverse

/-- JavaScript `String.prototype.split(sep)` with a one-character separator,
on a character list.  Always returns a nonempty list of groups. -/
def splitOnChar (c : Char) : List Char → List (List Char)
  | [] => [[]]
  | x :: xs =>
    match splitOnChar c xs with
    | [] => [[]]
    | g :: gs => if x = c then [] :: g :: gs else (x :: g) :: gs

/-- JavaScript `s.trim()` on strings. -/
def jsTrim (s : String) : String := String.mk (trimChars s.data)

/-- JavaScript `s.split(c)` on strings. -/
def jsSplit (c : Char) (s : String) : List String :=
  (splitOnChar c s.data).map String.mk

/-- JavaScript `array.join('\n')`. -/
def joinLines : List String → String
  | [] => ""
  | [x] => x
  | x :: y :: xs => x ++ "\n" ++ joinLines (y :: xs)

/-- The cache file content as a line array, `content.trim().split('\n')`,
exactly as read at helpers.ts:381 and helpers.ts:435. -/
def readLines (s : String) : List String := jsSplit '\n' (jsTrim s)

/-- The identity part of a cache line, `value.split(':')[0]`. -/
def linePart (line : String) : String := (jsSplit ':' line).headD ""

/-- The cache key `script.name + '@' + server`. -/
def scriptAtServer (script : ScriptT) (server : String) : String :=
  script.name ++ "@" ++ server

/-- JavaScript string coercion of an optional string (string concatenation
with `undefined` yields the text "undefined"). -/
def jsOptStr : Option String → String
  | none => "undefined"
  | some s => s

/-! ## The hash cache functions -/

/-- Outcome of `fs.readFileSync` on the cache file. -/
inductive FileRead where
  | missing
  | ioError
  | content (s : String)
deriving DecidableEq, Repr

/-- Result of a cache function: the (possibly annotated) scripts and the
content written to the cache file, if any. -/
structure CacheResult where
  scripts : List ScriptT
  write : Option String
deriving DecidableEq, Repr

/-- The per-script annotation loop body of `readHashValues`
(helpers.ts:405-418): exempt scripts get `conflictMode = false`; for the
others every cache line whose identity part matches `name@server`
overwrites `lastSyncHash` with the line's second `:`-separated field. -/
def annotLine (server : String) (sc : ScriptT) (value : String) : ScriptT :=
  if linePart value = scriptAtServer sc server then
    { sc with lastSyncHash := (jsSplit ':' value).get? 1 }
  else sc

def annotateScript (hashValues : List String) (server : String)
    (forceUploadList : List String) (script : ScriptT) : ScriptT :=
  if script.name ∈ forceUploadList then { script with conflictMode := false }
  else hashValues.foldl (annotLine server) script

/-- readHashValues (helpers.ts:366-419).  `file` is the outcome of reading
the cache file: a missing file yields an empty line array and lazily
creates the file; any other read error returns early without touching the
scripts. -/
def readHashValues (pscripts : List ScriptT) (server : String)
    (forceUploadList : List String) (file : FileRead) : CacheResult :=
  if pscripts.isEmpty then ⟨pscripts, none⟩
  else
    match file with
    | .ioError => ⟨pscripts, none⟩
    | .missing => ⟨pscripts.map (annotateScript [] server forceUploadList), some ""⟩
    | .content s =>
        ⟨pscripts.map (annotateScript (readLines s) server forceUploadList), none⟩

/-- The per-script update loop body of `updateHashValues`
(helpers.ts:462-483): only scripts that are not in the exemption list and
whose `conflict` flag is not `true` are written; a matching line is
replaced in place, otherwise the entry is appended. -/
def updateEntry (server : String) (forceUploadList : List String)
    (hashValues : List String) (script : ScriptT) : List String :=
  if script.name ∉ forceUploadList ∧ script.conflict = false then
    let entry := scriptAtServer script server ++ ":" ++ jsOptStr script.lastSyncHash
    let replaced := hashValues.map (fun value =>
      if linePart value = scriptAtServer script server then entry else value)
    if ∃ value ∈ hashValues, linePart value = scriptAtServer script server then
      replaced
    else replaced ++ [entry]
  else hashValues

/-- updateHashValues (helpers.ts:421-488).  Any failure to read the cache
file — including a missing file — returns without writing (the lazy-create
branch at helpers.ts:438-443 is commented out).  Returns the content
written to the cache file, if any. -/
def updateHashValues (pscripts : List ScriptT) (server : String)
    (forceUploadList : List String) (file : FileRead) : Option String :=
  if pscripts.isEmpty then none
  else
    match file with
    | .ioError => none
    | .missing => none
    | .content s =>
        let hashValues := pscripts.foldl (updateEntry server forceUploadList) (readLines s)
        some (jsTrim (joinLines hashValues))

/-- The test `script.conflict || !script.lastSyncHash` (helpers.ts:57) as a
boolean predicate. -/
def unresolvedB (s : ScriptT) : Bool := s.conflict || !jsTruthy s.lastSyncHash

/-- A string usable as server name or hash in the cache format: nonempty,
no whitespace, no ':' separator. -/
def plain (s : String) : Prop :=
  s.data ≠ [] ∧ ∀ c ∈ s.data, isWsChar c = false ∧ c ≠ ':'

/-- The cache identity string `name@server`. -/
def idStr (n srv : String) : String := n ++ "@" ++ srv

/-- Example scripts used in concrete counterexamples and witnesses: a script
on the exemption list with no stored hash, a conflicted script, and a clean
script. -/
def exemptScript : ScriptT := ⟨"ex", false, true, none, false⟩

def s1c : ScriptT := ⟨"s1", true, true, some "x", false⟩

def s2c : ScriptT := ⟨"s2", false, true, some "h", false⟩

lemma askForUpload_clean (s : ScriptT) (all np ss : Bool) (pick : Option String)
    (h1 : s.conflict = false) (h2 : jsTruthy s.lastSyncHash = true) :
    askForUpload s all np ss pick = (some NO_CONFLICT, none) := by
  simp [askForUpload, h1, h2]

lemma askForUpload_all (s : ScriptT) (np ss : Bool) (pick : Option String)
    (hc : s.conflict = true ∨ jsTruthy s.lastSyncHash = false) :
    askForUpload s true np ss pick = (some FORCE_UPLOAD_ALL, none) := by
  rcases hc with h | h <;> simp [askForUpload, h]

lemma askForUpload_nonePol (s : ScriptT) (ss : Bool) (pick : Option String)
    (hc : s.conflict = true ∨ jsTruthy s.lastSyncHash = false) :
    askForUpload s false true ss pick = (some FORCE_UPLOAD_NONE, none) := by
  rcases hc with h | h <;> simp [askForUpload, h]

lemma askForUpload_prompt (s : ScriptT) (ss : Bool) (pick : Option String)
    (hc : s.conflict = true ∨ jsTruthy s.lastSyncHash = false) :
    (askForUpload s false false ss pick).1 = pick ∧
      (askForUpload s false false ss pick).2.isSome = true := by
  rcases hc with h | h <;> simp [askForUpload, h]

lemma uploadStep_clean (ss : Bool) (st : BatchState) (item : Nat × ScriptT × Option String)
    (h1 : item.2.1.conflict = false) (h2 : jsTruthy item.2.1.lastSyncHash = true) :
    uploadStep ss st item = { st with noConflict := st.noConflict ++ [(item.1, item.2.1)] } := by
  rcases st with ⟨nc, fu, af, nf, pr⟩
  simp [uploadStep, askForUpload_clean _ _ _ _ _ h1 h2]

lemma uploadStep_all (ss : Bool) (st : BatchState) (item : Nat × ScriptT × Option String)
    (ha : st.allFlag = true)
    (hc : item.2.1.conflict = true ∨ jsTruthy item.2.1.lastSyncHash = false) :
    uploadStep ss st item =
      { st with forceUpload := st.forceUpload ++ [(item.1, forcedScript item.2.1)],
                allFlag := true } := by
  rcases st with ⟨nc, fu, af, nf, pr⟩
  cases ha
  simp [uploadStep, askForUpload_all _ _ _ _ hc, FORCE_UPLOAD_ALL, NO_CONFLICT]

lemma uploadStep_nonePol (ss : Bool) (st : BatchState) (item : Nat × ScriptT × Option String)
    (ha : st.allFlag = false) (hn : st.noneFlag = true)
    (hc : item.2.1.conflict = true ∨ jsTruthy item.2.1.lastSyncHash = false) :
    uploadStep ss st item = st := by
  rcases st with ⟨nc, fu, af, nf, pr⟩
  cases ha; cases hn
  simp [uploadStep, askForUpload_nonePol _ _ _ hc, FORCE_UPLOAD_ALL, NO_CONFLICT,
    FORCE_UPLOAD_NONE, FORCE_UPLOAD_YES, FORCE_UPLOAD_NO]

lemma unresolvedB_true {s : ScriptT} :
    unresolvedB s = true ↔ (s.conflict = true ∨ jsTruthy s.lastSyncHash = false) := by
  cases h : s.conflict <;> cases h2 : jsTruthy s.lastSyncHash <;> simp [unresolvedB, h, h2]

lemma unresolvedB_false {s : ScriptT} :
    unresolvedB s = false ↔ (s.conflict = false ∧ jsTruthy s.lastSyncHash = true) := by
  cases h : s.conflict <;> cases h2 : jsTruthy s.lastSyncHash <;> simp [unresolvedB, h, h2]

lemma foldl_all_eq (ss : Bool) (nc fu : List (Nat × ScriptT)) (nf : Bool)
    (pr : List Nat) (items : List (Nat × ScriptT × Option String)) :
    List.foldl (uploadStep ss) ⟨nc, fu, true, nf, pr⟩ items =
      ⟨nc ++ (items.filter (fun it => !unresolvedB it.2.1)).map (fun it => (it.1, it.2.1)),
       fu ++ (items.filter (fun it => unresolvedB it.2.1)).map
          (fun it => (it.1, forcedScript it.2.1)),
       true, nf, pr⟩ := by
  induction items generalizing nc fu with
  | nil => simp
  | cons item rest ih =>
    by_cases hu : unresolvedB item.2.1 = true
    · rw [List.foldl_cons, uploadStep_all ss _ item rfl (unresolvedB_true.mp hu)]
      rw [show ({ BatchState.mk nc fu true nf pr with
            forceUpload := fu ++ [(item.1, forcedScript item.2.1)], allFlag := true }) =
          BatchState.mk nc (fu ++ [(item.1, forcedScript item.2.1)]) true nf pr from rfl, ih]
      simp [List.filter_cons, hu]
    · have hf := unresolvedB_false.mp (by simpa using hu)
      rw [List.foldl_cons, uploadStep_clean ss _ item hf.1 hf.2]
      rw [show ({ BatchState.mk nc fu true nf pr with
            noConflict := nc ++ [(item.1, item.2.1)] }) =
          BatchState.mk (nc ++ [(item.1, item.2.1)]) fu true nf pr from rfl, ih]
      simp [List.filter_cons, hu]

lemma foldl_nonePol_eq (ss : Bool) (nc fu : List (Nat × ScriptT))
    (pr : List Nat) (items : List (Nat × ScriptT × Option String)) :
    List.foldl (uploadStep ss) ⟨nc, fu, false, true, pr⟩ items =
      ⟨nc ++ (items.filter (fun it => !unresolvedB it.2.1)).map (fun it => (it.1, it.2.1)),
       fu, false, true, pr⟩ := by
  induction items generalizing nc with
  | nil => simp
  | cons item rest ih =>
    by_cases hu : unresolvedB item.2.1 = true
    · rw [List.foldl_cons, uploadStep_nonePol ss _ item rfl rfl (unresolvedB_true.mp hu), ih]
      simp [List.filter_cons, hu]
    · have hf := unresolvedB_false.mp (by simpa using hu)
      rw [List.foldl_cons, uploadStep_clean ss _ item hf.1 hf.2]
      rw [show ({ BatchState.mk nc fu false true pr with
            noConflict := nc ++ [(item.1, item.2.1)] }) =
          BatchState.mk (nc ++ [(item.1, item.2.1)]) fu false true pr from rfl, ih]
      simp [List.filter_cons, hu]

lemma uploadStep_allFlag_mono (ss : Bool) (st : BatchState)
    (item : Nat × ScriptT × Option String) (h : st.allFlag = true) :
    (uploadStep ss st item).allFlag = true := by
  rcases st with ⟨nc, fu, af, nf, pr⟩
  cases h
  simp only [uploadStep]
  split_ifs <;> rfl

lemma uploadStep_noneFlag_mono (ss : Bool) (st : BatchState)
    (item : Nat × ScriptT × Option String) (h : st.noneFlag = true) :
    (uploadStep ss st item).noneFlag = true := by
  rcases st with ⟨nc, fu, af, nf, pr⟩
  cases h
  simp only [uploadStep]
  split_ifs <;> rfl

lemma foldl_allFlag_mono (ss : Bool) (st : BatchState)
    (items : List (Nat × ScriptT × Option String)) (h : st.allFlag = true) :
    (List.foldl (uploadStep ss) st items).allFlag = true := by
  induction items generalizing st with
  | nil => exact h
  | cons item rest ih => exact ih _ (uploadStep_allFlag_mono ss st item h)

lemma foldl_noneFlag_mono (ss : Bool) (st : BatchState)
    (items : List (Nat × ScriptT × Option String)) (h : st.noneFlag = true) :
    (List.foldl (uploadStep ss) st items).noneFlag = true := by
  induction items generalizing st with
  | nil => exact h
  | cons item rest ih => exact ih _ (uploadStep_noneFlag_mono ss st item h)

lemma uploadStep_shape (ss : Bool) (st : BatchState)
    (item : Nat × ScriptT × Option String) :
    ∃ dnc dfu dpr,
      (uploadStep ss st item).noConflict = st.noConflict ++ dnc ∧
      (uploadStep ss st item).forceUpload = st.forceUpload ++ dfu ∧
      (uploadStep ss st item).prompted = st.prompted ++ dpr ∧
      (dnc = [] ∨ dnc = [(item.1, item.2.1)]) ∧
      (dfu = [] ∨ dfu = [(item.1, forcedScript item.2.1)]) ∧
      (dnc = [] ∨ dfu = []) := by
  rcases st with ⟨nc, fu, af, nf, pr⟩
  simp only [uploadStep]
  split_ifs <;>
    first
      | (refine ⟨[(item.1, item.2.1)], [], [item.1], ?_, ?_, ?_,
            Or.inr rfl, Or.inl rfl, Or.inr rfl⟩ <;> simp <;> done)
      | (refine ⟨[(item.1, item.2.1)], [], [], ?_, ?_, ?_,
            Or.inr rfl, Or.inl rfl, Or.inr rfl⟩ <;> simp <;> done)
      | (refine ⟨[], [(item.1, forcedScript item.2.1)], [item.1], ?_, ?_, ?_,
            Or.inl rfl, Or.inr rfl, Or.inl rfl⟩ <;> simp <;> done)
      | (refine ⟨[], [(item.1, forcedScript item.2.1)], [], ?_, ?_, ?_,
            Or.inl rfl, Or.inr rfl, Or.inl rfl⟩ <;> simp <;> done)
      | (refine ⟨[], [], [item.1], ?_, ?_, ?_,
            Or.inl rfl, Or.inl rfl, Or.inl rfl⟩ <;> simp <;> done)
      | (refine ⟨[], [], [], ?_, ?_, ?_,
            Or.inl rfl, Or.inl rfl, Or.inl rfl⟩ <;> simp <;> done)

lemma foldl_shape (ss : Bool) (items : List (Nat × ScriptT × Option String))
    (st : BatchState) :
    ∃ dnc dfu,
      (List.foldl (uploadStep ss) st items).noConflict = st.noConflict ++ dnc ∧
      (List.foldl (uploadStep ss) st items).forceUpload = st.forceUpload ++ dfu ∧
      (∀ p ∈ dnc, ∃ it ∈ items, p = (it.1, it.2.1)) ∧
      (∀ p ∈ dfu, ∃ it ∈ items, p = (it.1, forcedScript it.2.1)) ∧
      ((dnc.map Prod.fst : List Nat) : Multiset Nat) +
          ((dfu.map Prod.fst : List Nat) : Multiset Nat) ≤
        ((items.map (fun it => it.1) : List Nat) : Multiset Nat) := by
  induction items generalizing st with
  | nil =>
    exact ⟨[], [], by simp, by simp, by simp, by simp, by simp⟩
  | cons item rest ih =>
    obtain ⟨dnc0, dfu0, dpr0, h1, h2, hpr, hd1, hd2, hd3⟩ := uploadStep_shape ss st item
    obtain ⟨dnc1, dfu1, g1, g2, g3, g4, g5⟩ := ih (uploadStep ss st item)
    refine ⟨dnc0 ++ dnc1, dfu0 ++ dfu1, ?_, ?_, ?_, ?_, ?_⟩
    · rw [List.foldl_cons, g1, h1, List.append_assoc]
    · rw [List.foldl_cons, g2, h2, List.append_assoc]
    · intro p hp
      rcases List.mem_append.mp hp with hp | hp
      · rcases hd1 with h | h
        · simp [h] at hp
        · subst h
          simp only [List.mem_singleton] at hp
          exact ⟨item, List.mem_cons_self _ _, hp⟩
      · obtain ⟨it, hit, he⟩ := g3 p hp
        exact ⟨it, List.mem_cons_of_mem _ hit, he⟩
    · intro p hp
      rcases List.mem_append.mp hp with hp | hp
      · rcases hd2 with h | h
        · simp [h] at hp
        · subst h
          simp only [List.mem_singleton] at hp
          exact ⟨item, List.mem_cons_self _ _, hp⟩
      · obtain ⟨it, hit, he⟩ := g4 p hp
        exact ⟨it, List.mem_cons_of_mem _ hit, he⟩
    · have hsmall : ((dnc0.map Prod.fst : List Nat) : Multiset Nat) +
          ((dfu0.map Prod.fst : List Nat) : Multiset Nat) ≤ ({item.1} : Multiset Nat) := by
        rcases hd3 with h | h
        · subst h
          rcases hd2 with h2' | h2' <;> subst h2' <;> simp
        · subst h
          rcases hd1 with h1' | h1' <;> subst h1' <;> simp
      calc (((dnc0 ++ dnc1).map Prod.fst : List Nat) : Multiset Nat) +
            (((dfu0 ++ dfu1).map Prod.fst : List Nat) : Multiset Nat)
          = (((dnc0.map Prod.fst : List Nat) : Multiset Nat) +
              ((dnc1.map Prod.fst : List Nat) : Multiset Nat)) +
            (((dfu0.map Prod.fst : List Nat) : Multiset Nat) +
              ((dfu1.map Prod.fst : List Nat) : Multiset Nat)) := by
            simp [List.map_append]
        _ = (((dnc0.map Prod.fst : List Nat) : Multiset Nat) +
              ((dfu0.map Prod.fst : List Nat) : Multiset Nat)) +
            (((dnc1.map Prod.fst : List Nat) : Multiset Nat) +
              ((dfu1.map Prod.fst : List Nat) : Multiset Nat)) :=
            add_add_add_comm _ _ _ _
        _ ≤ ({item.1} : Multiset Nat) +
              ((rest.map (fun it => it.1) : List Nat) : Multiset Nat) :=
            add_le_add hsmall g5
        _ = (((item :: rest).map (fun it => it.1) : List Nat) : Multiset Nat) := by
            simp [Multiset.singleton_add]

/-- C1 counterexample: a script on the exemption list (annotated
conflictMode = false by readHashValues) whose lastSyncHash is not set is
prompted by askForUpload and does not resolve NoConflict — the claim's
"regardless of whether lastSyncHash is set" fails. -/
theorem claim1_counterexample :
    (readHashValues [exemptScript] "srv" ["ex"] (.content "")).scripts =
      [{ exemptScript with conflictMode := false }] ∧
    (askForUpload { exemptScript with conflictMode := false } false false true
        (some FORCE_UPLOAD_YES)).1 ≠ some NO_CONFLICT ∧
    (askForUpload { exemptScript with conflictMode := false } false false true
        (some FORCE_UPLOAD_YES)).2.isSome = true := by
  refine ⟨rfl, ?_, rfl⟩
  decide

/-- C1 amended: askForUpload never consults conflictMode, so an exempted
script (conflictMode = false) resolves NoConflict without a prompt exactly
when its conflict flag is false and its lastSyncHash is truthily present —
the same condition as for any other script; an exempt script with no
lastSyncHash is prompted when both policy flags are clear and is
policy-resolved (ALL respectively NONE) when a flag is latched. -/
theorem claim1_amended (s : ScriptT) (all np ss : Bool) (pick : Option String)
    (hm : s.conflictMode = false) :
    (((askForUpload s all np ss pick).1 = some NO_CONFLICT ∧
        (askForUpload s all np ss pick).2 = none) ↔
      (s.conflict = false ∧ jsTruthy s.lastSyncHash = true)) ∧
    (s.lastSyncHash = none →
      (askForUpload s false false ss pick).2.isSome = true ∧
      askForUpload s true np ss pick = (some FORCE_UPLOAD_ALL, none) ∧
      askForUpload s false true ss pick = (some FORCE_UPLOAD_NONE, none)) ∧
    (∀ b, askForUpload { s with conflictMode := b } all np ss pick =
      askForUpload s all np ss pick) := by
  refine ⟨?_, ?_, fun b => rfl⟩
  · constructor
    · intro ⟨hv, hp⟩
      by_cases hc : s.conflict = true
      · exfalso
        cases all with
        | true =>
          rw [askForUpload_all s np ss pick (Or.inl hc)] at hv
          exact absurd (Option.some.inj hv) (by decide)
        | false =>
          cases np with
          | true =>
            rw [askForUpload_nonePol s ss pick (Or.inl hc)] at hv
            exact absurd (Option.some.inj hv) (by decide)
          | false =>
            have := (askForUpload_prompt s ss pick (Or.inl hc)).2
            rw [hp] at this
            simp at this
      · have hc' : s.conflict = false := by simpa using hc
        by_cases ht : jsTruthy s.lastSyncHash = true
        · exact ⟨hc', ht⟩
        · exfalso
          have ht' : jsTruthy s.lastSyncHash = false := by simpa using ht
          cases all with
          | true =>
            rw [askForUpload_all s np ss pick (Or.inr ht')] at hv
            exact absurd (Option.some.inj hv) (by decide)
          | false =>
            cases np with
            | true =>
              rw [askForUpload_nonePol s ss pick (Or.inr ht')] at hv
              exact absurd (Option.some.inj hv) (by decide)
            | false =>
              have := (askForUpload_prompt s ss pick (Or.inr ht')).2
              rw [hp] at this
              simp at this
    · intro ⟨h1, h2⟩
      rw [askForUpload_clean s all np ss pick h1 h2]
      exact ⟨rfl, rfl⟩
  · intro h
    have ht : jsTruthy s.lastSyncHash = false := by rw [h]; rfl
    exact ⟨(askForUpload_prompt s ss pick (Or.inr ht)).2,
      askForUpload_all s np ss pick (Or.inr ht),
      askForUpload_nonePol s ss pick (Or.inr ht)⟩

theorem claim1_amended_witness :
    (askForUpload ⟨"ex", false, false, none, false⟩ false false true
        (some FORCE_UPLOAD_YES)).2.isSome = true :=
  ((claim1_amended ⟨"ex", false, false, none, false⟩ false false true
    (some FORCE_UPLOAD_YES) rfl).2.1 rfl).1

/-- C5: askForUpload resolves NoConflict with no prompt exactly when the
script's conflict flag is false and its lastSyncHash is (truthily)
present; and a script with no lastSyncHash is always prompted when both
policy flags are still false. -/
theorem claim5_noconflict_iff (s : ScriptT) (all np ss : Bool) (pick : Option String) :
    (((askForUpload s all np ss pick).1 = some NO_CONFLICT ∧
        (askForUpload s all np ss pick).2 = none) ↔
      (s.conflict = false ∧ jsTruthy s.lastSyncHash = true)) ∧
    (s.lastSyncHash = none → (askForUpload s false false ss pick).2.isSome = true) := by
  constructor
  · constructor
    · intro ⟨hv, hp⟩
      by_cases hc : s.conflict = true
      · exfalso
        cases all with
        | true =>
          rw [askForUpload_all s np ss pick (Or.inl hc)] at hv
          exact absurd (Option.some.inj hv) (by decide)
        | false =>
          cases np with
          | true =>
            rw [askForUpload_nonePol s ss pick (Or.inl hc)] at hv
            exact absurd (Option.some.inj hv) (by decide)
          | false =>
            have := (askForUpload_prompt s ss pick (Or.inl hc)).2
            rw [hp] at this
            simp at this
      · have hc' : s.conflict = false := by simpa using hc
        by_cases ht : jsTruthy s.lastSyncHash = true
        · exact ⟨hc', ht⟩
        · exfalso
          have ht' : jsTruthy s.lastSyncHash = false := by simpa using ht
          cases all with
          | true =>
            rw [askForUpload_all s np ss pick (Or.inr ht')] at hv
            exact absurd (Option.some.inj hv) (by decide)
          | false =>
            cases np with
            | true =>
              rw [askForUpload_nonePol s ss pick (Or.inr ht')] at hv
              exact absurd (Option.some.inj hv) (by decide)
            | false =>
              have := (askForUpload_prompt s ss pick (Or.inr ht')).2
              rw [hp] at this
              simp at this
    · intro ⟨h1, h2⟩
      rw [askForUpload_clean s all np ss pick h1 h2]
      exact ⟨rfl, rfl⟩
  · intro h
    exact (askForUpload_prompt s ss pick (Or.inr (by rw [h]; rfl))).2

theorem claim5_noconflict_iff_witness :
    (askForUpload ⟨"w", false, true, none, false⟩ false false true none).2.isSome = true :=
  (claim5_noconflict_iff ⟨"w", false, true, none, false⟩ false false true none).2 rfl

/-- C2 counterexample: batch [conflicted script answered
"Yes (remember...)", clean script].  The first script resolves AppliedAll
(it is force-uploaded and the all flag latches), but the later clean
script resolves NoConflict, not UploadForced — "every script later in the
input order resolves to UploadForced" is false. -/
theorem claim2_counterexample :
    (ensureForceUpload [(s1c, some FORCE_UPLOAD_ALL), (s2c, none)]).allFlag = true ∧
    (ensureForceUpload [(s1c, some FORCE_UPLOAD_ALL), (s2c, none)]).forceUpload =
      [(0, forcedScript s1c)] ∧
    (1, s2c) ∈ (ensureForceUpload [(s1c, some FORCE_UPLOAD_ALL), (s2c, none)]).noConflict := by
  decide

/-- C2 amended: once the all flag is latched, processing the rest of the
batch shows no prompt, keeps the flag, force-uploads exactly the
conflicted-or-hashless remaining scripts, and routes the clean remaining
scripts to noConflict. -/
theorem claim2_amended (ss : Bool) (nc fu : List (Nat × ScriptT)) (nf : Bool)
    (pr : List Nat) (items : List (Nat × ScriptT × Option String)) :
    (List.foldl (uploadStep ss) ⟨nc, fu, true, nf, pr⟩ items).prompted = pr ∧
    (List.foldl (uploadStep ss) ⟨nc, fu, true, nf, pr⟩ items).allFlag = true ∧
    (∀ it ∈ items, unresolvedB it.2.1 = true →
      (it.1, forcedScript it.2.1) ∈
        (List.foldl (uploadStep ss) ⟨nc, fu, true, nf, pr⟩ items).forceUpload) ∧
    (∀ it ∈ items, unresolvedB it.2.1 = false →
      (it.1, it.2.1) ∈
        (List.foldl (uploadStep ss) ⟨nc, fu, true, nf, pr⟩ items).noConflict) := by
  rw [foldl_all_eq]
  refine ⟨rfl, rfl, ?_, ?_⟩
  · intro it hit hu
    simp only [BatchState.forceUpload, List.mem_append, List.mem_map]
    exact Or.inr ⟨it, List.mem_filter.mpr ⟨hit, hu⟩, rfl⟩
  · intro it hit hu
    simp only [BatchState.noConflict, List.mem_append, List.mem_map]
    exact Or.inr ⟨it, List.mem_filter.mpr ⟨hit, by simp [hu]⟩, rfl⟩

theorem claim2_amended_witness :
    (5, forcedScript s1c) ∈
      (List.foldl (uploadStep false) ⟨[], [], true, false, []⟩
        [(5, (s1c, none))]).forceUpload :=
  (claim2_amended false [] [] false [] [(5, (s1c, none))]).2.2.1
    (5, (s1c, none)) (by decide) (by decide)

/-- C6 counterexample: batch [conflicted script answered
"No (remember...)", clean script].  The none flag latches at the first
script, but the later clean script is not dropped: it lands in the
noConflict output — "every later script resolves UploadDenied (dropped
from both output sets)" is false. -/
theorem claim6_counterexample :
    (ensureForceUpload [(s1c, some FORCE_UPLOAD_NONE), (s2c, none)]).noneFlag = true ∧
    (ensureForceUpload [(s1c, some FORCE_UPLOAD_NONE), (s2c, none)]).forceUpload = [] ∧
    (1, s2c) ∈ (ensureForceUpload [(s1c, some FORCE_UPLOAD_NONE), (s2c, none)]).noConflict := by
  decide

/-- C6 amended: once the none flag is latched (all flag clear), the rest of
the batch is processed without prompts, the forceUpload output and both
flags are unchanged, conflicted-or-hashless scripts are dropped from both
outputs, and clean scripts still go to noConflict; moreover both policy
flags are monotonic in any run: once true they never revert. -/
theorem claim6_amended (ss : Bool) (nc fu : List (Nat × ScriptT))
    (pr : List Nat) (items : List (Nat × ScriptT × Option String)) :
    List.foldl (uploadStep ss) ⟨nc, fu, false, true, pr⟩ items =
      ⟨nc ++ (items.filter (fun it => !unresolvedB it.2.1)).map (fun it => (it.1, it.2.1)),
       fu, false, true, pr⟩ ∧
    (∀ st : BatchState, ∀ items2 : List (Nat × ScriptT × Option String),
      st.noneFlag = true → (List.foldl (uploadStep ss) st items2).noneFlag = true) ∧
    (∀ st : BatchState, ∀ items2 : List (Nat × ScriptT × Option String),
      st.allFlag = true → (List.foldl (uploadStep ss) st items2).allFlag = true) := by
  exact ⟨foldl_nonePol_eq ss nc fu pr items,
    fun st items2 h => foldl_noneFlag_mono ss st items2 h,
    fun st items2 h => foldl_allFlag_mono ss st items2 h⟩

theorem claim6_amended_witness :
    List.foldl (uploadStep false) ⟨[], [], false, true, []⟩ [(3, (s1c, none))] =
      ⟨[], [], false, true, []⟩ := by
  have h := (claim6_amended false [] [] [] [(3, (s1c, none))]).1
  simpa using h

/-- C7: a dismissed quick pick (resolution `undefined`) is handled exactly
like the answer "No (remember my answer for this operation)": the step
function is equal for the two outcomes on every state; on a prompting
script with clear flags the script is dropped and only the none flag and
the prompt log change; and a single-script batch whose prompt is dismissed
returns two empty output sets with the none flag latched and no modified
copy of the script anywhere. -/
theorem claim7_dismissed_is_none (i : Nat) (s : ScriptT) (st : BatchState) (ss : Bool)
    (hu : unresolvedB s = true) :
    (∀ st2 : BatchState, ∀ i2 : Nat, ∀ s2 : ScriptT,
      uploadStep ss st2 (i2, s2, (none : Option String)) =
        uploadStep ss st2 (i2, s2, some FORCE_UPLOAD_NONE)) ∧
    (st.allFlag = false → st.noneFlag = false →
      uploadStep ss st (i, s, (none : Option String)) =
        { st with noneFlag := true, prompted := st.prompted ++ [i] }) ∧
    ensureForceUpload [(s, (none : Option String))] = ⟨[], [], false, true, [0]⟩ := by
  refine ⟨?_, ?_, ?_⟩
  · intro st2 i2 s2
    rcases st2 with ⟨nc, fu, af, nf, pr⟩
    cases af <;> cases nf <;>
      by_cases hc : s2.conflict = true <;>
      by_cases ht : jsTruthy s2.lastSyncHash = true <;>
      simp [uploadStep, askForUpload, hc, ht, FORCE_UPLOAD_NONE, FORCE_UPLOAD_ALL,
        FORCE_UPLOAD_YES, FORCE_UPLOAD_NO, NO_CONFLICT]
  · intro ha hn
    rcases st with ⟨nc, fu, af, nf, pr⟩
    cases ha; cases hn
    rcases unresolvedB_true.mp hu with hc | ht
    · simp [uploadStep, askForUpload, hc, FORCE_UPLOAD_NONE, FORCE_UPLOAD_ALL,
        FORCE_UPLOAD_YES, FORCE_UPLOAD_NO, NO_CONFLICT]
    · simp [uploadStep, askForUpload, ht, FORCE_UPLOAD_NONE, FORCE_UPLOAD_ALL,
        FORCE_UPLOAD_YES, FORCE_UPLOAD_NO, NO_CONFLICT]
  · show List.foldl _ initBatch _ = _
    rcases unresolvedB_true.mp hu with hc | ht
    · simp [initBatch, uploadStep, askForUpload, hc, FORCE_UPLOAD_NONE, FORCE_UPLOAD_ALL,
        FORCE_UPLOAD_YES, FORCE_UPLOAD_NO, NO_CONFLICT]
    · simp [initBatch, uploadStep, askForUpload, ht, FORCE_UPLOAD_NONE, FORCE_UPLOAD_ALL,
        FORCE_UPLOAD_YES, FORCE_UPLOAD_NO, NO_CONFLICT]

theorem claim7_dismissed_is_none_witness :
    ensureForceUpload [(s1c, (none : Option String))] = ⟨[], [], false, true, [0]⟩ :=
  (claim7_dismissed_is_none 0 s1c initBatch false (by decide)).2.2

/-- C9: the two outputs of ensureForceUpload are disjoint as script
records (no input position appears in both), every output entry stems
from the input entry at its position (unmodified for noConflict, with the
forceUpload/conflict mutation for forceUpload), and the output sizes sum
to at most the input size. -/
theorem claim9_partition (scripts : List (ScriptT × Option String)) :
    (∀ i : Nat, ∀ s t : ScriptT,
      (i, s) ∈ (ensureForceUpload scripts).noConflict →
      (i, t) ∈ (ensureForceUpload scripts).forceUpload → False) ∧
    (∀ p ∈ (ensureForceUpload scripts).noConflict,
      ∃ pick, scripts[p.1]? = some (p.2, pick)) ∧
    (∀ p ∈ (ensureForceUpload scripts).forceUpload,
      ∃ s0 pick, scripts[p.1]? = some (s0, pick) ∧ p.2 = forcedScript s0) ∧
    (ensureForceUpload scripts).noConflict.length +
        (ensureForceUpload scripts).forceUpload.length ≤ scripts.length := by
  obtain ⟨dnc, dfu, h1, h2, h3, h4, h5⟩ :=
    foldl_shape (scripts.length == 1) scripts.enum initBatch
  have hnc : (ensureForceUpload scripts).noConflict = dnc := by
    rw [ensureForceUpload, h1]; rfl
  have hfu : (ensureForceUpload scripts).forceUpload = dfu := by
    rw [ensureForceUpload, h2]; rfl
  have hidx : (scripts.enum.map (fun it => it.1)) = List.range scripts.length :=
    List.enum_map_fst scripts
  rw [hidx] at h5
  have hnodup : ((dnc.map Prod.fst ++ dfu.map Prod.fst : List Nat)).Nodup := by
    have hms := Multiset.nodup_of_le h5 ((Multiset.coe_nodup).mpr (List.nodup_range _))
    rw [Multiset.coe_add, Multiset.coe_nodup] at hms
    exact hms
  have hdisj : List.Disjoint (dnc.map Prod.fst) (dfu.map Prod.fst) :=
    (List.nodup_append.mp hnodup).2.2
  refine ⟨?_, ?_, ?_, ?_⟩
  · intro i s t hs ht
    rw [hnc] at hs
    rw [hfu] at ht
    have hi1 : i ∈ dnc.map Prod.fst := List.mem_map.mpr ⟨(i, s), hs, rfl⟩
    have hi2 : i ∈ dfu.map Prod.fst := List.mem_map.mpr ⟨(i, t), ht, rfl⟩
    exact hdisj hi1 hi2
  · intro p hp
    rw [hnc] at hp
    obtain ⟨it, hit, he⟩ := h3 p hp
    have := List.mem_enum_iff_getElem?.mp hit
    exact ⟨it.2.2, by rw [he]; simpa using this⟩
  · intro p hp
    rw [hfu] at hp
    obtain ⟨it, hit, he⟩ := h4 p hp
    have := List.mem_enum_iff_getElem?.mp hit
    refine ⟨it.2.1, it.2.2, by rw [he]; simpa using this, by rw [he]⟩
  · have hcard := Multiset.card_le_card h5
    simp only [Multiset.card_add, Multiset.coe_card, List.length_map,
      List.length_range] at hcard
    rw [hnc, hfu]
    simpa using hcard

theorem claim9_partition_witness :
    (ensureForceUpload [(s1c, some FORCE_UPLOAD_YES)]).noConflict.length +
        (ensureForceUpload [(s1c, some FORCE_UPLOAD_YES)]).forceUpload.length ≤ 1 :=
  (claim9_partition [(s1c, some FORCE_UPLOAD_YES)]).2.2.2

lemma splitOnChar_ne_nil (c : Char) (l : List Char) : splitOnChar c l ≠ [] := by
  cases l with
  | nil => simp [splitOnChar]
  | cons x xs =>
    simp only [splitOnChar]
    rcases h : splitOnChar c xs with _ | ⟨g, gs⟩
    · simp
    · split_ifs <;> simp

lemma splitOnChar_not_mem (c : Char) (l : List Char) (h : c ∉ l) :
    splitOnChar c l = [l] := by
  induction l with
  | nil => rfl
  | cons x xs ih =>
    have hx : x ≠ c := fun he => h (he ▸ List.mem_cons_self x xs)
    have hxs : c ∉ xs := fun hm => h (List.mem_cons_of_mem _ hm)
    simp only [splitOnChar, ih hxs]
    simp [hx]

lemma splitOnChar_append (c : Char) (a b : List Char) (h : c ∉ a) :
    splitOnChar c (a ++ c :: b) = a :: splitOnChar c b := by
  induction a with
  | nil =>
    simp only [List.nil_append, splitOnChar]
    rcases hb : splitOnChar c b with _ | ⟨g, gs⟩
    · exact absurd hb (splitOnChar_ne_nil c b)
    · simp
  | cons x xs ih =>
    have hx : x ≠ c := fun he => h (he ▸ List.mem_cons_self x xs)
    have hxs : c ∉ xs := fun hm => h (List.mem_cons_of_mem _ hm)
    rw [List.cons_append, splitOnChar, ih hxs]
    simp [hx]

lemma dropWhile_isWs_eq_self (l : List Char)
    (h : ∀ c, l.head? = some c → isWsChar c = false) :
    l.dropWhile isWsChar = l := by
  cases l with
  | nil => rfl
  | cons x xs => simp [List.dropWhile_cons, h x rfl]

lemma trimChars_eq_self (l : List Char)
    (h1 : ∀ c, l.head? = some c → isWsChar c = false)
    (h2 : ∀ c, l.getLast? = some c → isWsChar c = false) :
    trimChars l = l := by
  unfold trimChars
  rw [dropWhile_isWs_eq_self l h1]
  rw [dropWhile_isWs_eq_self l.reverse (fun c hc => h2 c (by rwa [List.head?_reverse] at hc))]
  exact List.reverse_reverse l

lemma trimChars_cons_ws (c : Char) (l : List Char) (hc : isWsChar c = true) :
    trimChars (c :: l) = trimChars l := by
  unfold trimChars
  rw [List.dropWhile_cons_of_pos (by simpa using hc)]

lemma mk_data (s : String) : String.mk s.data = s := rfl

lemma data_mk (l : List Char) : (String.mk l).data = l := rfl

lemma mem_of_getLast_eq {l : List Char} {c : Char} (h : l.getLast? = some c) : c ∈ l := by
  obtain ⟨hn, hx⟩ := List.mem_getLast?_eq_getLast (show c ∈ l.getLast? from h)
  exact hx ▸ List.getLast_mem hn

lemma idStr_data (n srv : String) : (idStr n srv).data = n.data ++ '@' :: srv.data := by
  simp [idStr, String.data_append]

lemma idStr_ne (n1 n2 srv : String) (c1 c2 : Char) (t1 t2 : List Char)
    (h1 : n1.data = c1 :: t1) (h2 : n2.data = c2 :: t2) (hne : c1 ≠ c2) :
    idStr n1 srv ≠ idStr n2 srv := by
  intro he
  have hd := congrArg String.data he
  rw [idStr_data, idStr_data, h1, h2] at hd
  simp at hd
  exact hne hd.1

lemma colon_not_mem_idStr (n srv : String) (hn : ':' ∉ n.data)
    (hs : ':' ∉ srv.data) : ':' ∉ (idStr n srv).data := by
  rw [idStr_data]
  intro hm
  rcases List.mem_append.mp hm with h | h
  · exact hn h
  · rcases List.mem_cons.mp h with h | h
    · exact absurd h.symm (by decide)
    · exact hs h

lemma entry_data (n srv h : String) :
    (idStr n srv ++ ":" ++ h).data = (idStr n srv).data ++ ':' :: h.data := by
  simp [String.data_append]

lemma linePart_entry (n srv h : String) (hn : ':' ∉ n.data) (hs : ':' ∉ srv.data) :
    linePart (idStr n srv ++ ":" ++ h) = idStr n srv := by
  unfold linePart jsSplit
  rw [entry_data, splitOnChar_append _ _ _ (colon_not_mem_idStr n srv hn hs)]
  simp [mk_data]

lemma jsSplit_entry (n srv h : String) (hn : ':' ∉ n.data) (hs : ':' ∉ srv.data)
    (hh : ':' ∉ h.data) :
    jsSplit ':' (idStr n srv ++ ":" ++ h) = [idStr n srv, h] := by
  unfold jsSplit
  rw [entry_data, splitOnChar_append _ _ _ (colon_not_mem_idStr n srv hn hs),
    splitOnChar_not_mem _ _ hh]
  simp [mk_data]

lemma entry_get1 (n srv h : String) (hn : ':' ∉ n.data) (hs : ':' ∉ srv.data)
    (hh : ':' ∉ h.data) :
    (jsSplit ':' (idStr n srv ++ ":" ++ h)).get? 1 = some h := by
  rw [jsSplit_entry n srv h hn hs hh]
  rfl

lemma jsTrim_of_ends (s : String)
    (h1 : ∀ c, s.data.head? = some c → isWsChar c = false)
    (h2 : ∀ c, s.data.getLast? = some c → isWsChar c = false) : jsTrim s = s := by
  unfold jsTrim
  rw [trimChars_eq_self _ h1 h2, mk_data]

lemma entry_head (n srv h : String) (c : Char) (t : List Char) (hn : n.data = c :: t) :
    (idStr n srv ++ ":" ++ h).data.head? = some c := by
  rw [entry_data, idStr_data, hn]
  rfl

lemma entry_getLast (n srv h : String) :
    (idStr n srv ++ ":" ++ h).data.getLast? = (':' :: h.data).getLast? := by
  rw [entry_data]
  exact List.getLast?_append_cons _ _ _

lemma entry_last_not_ws (n srv h : String) (hh : ∀ c ∈ h.data, isWsChar c = false) :
    ∀ c, (idStr n srv ++ ":" ++ h).data.getLast? = some c → isWsChar c = false := by
  intro c hc
  rw [entry_getLast] at hc
  rcases List.mem_cons.mp (mem_of_getLast_eq hc) with h1 | h1
  · rw [h1]; rfl
  · exact hh c h1

lemma jsTrim_entry (n srv h : String) (cn : Char) (tn : List Char) (hn : n.data = cn :: tn)
    (hcn : isWsChar cn = false) (hh : ∀ c ∈ h.data, isWsChar c = false) :
    jsTrim (idStr n srv ++ ":" ++ h) = idStr n srv ++ ":" ++ h := by
  refine jsTrim_of_ends _ ?_ (entry_last_not_ws n srv h hh)
  intro c hc
  rw [entry_head n srv h cn tn hn] at hc
  cases hc
  exact hcn

lemma readLines_single (s : String) (htrim : jsTrim s = s) (hnl : '\n' ∉ s.data) :
    readLines s = [s] := by
  unfold readLines
  rw [htrim]
  unfold jsSplit
  rw [splitOnChar_not_mem _ _ hnl]
  simp [mk_data]

lemma plain_not_colon (s : String) (h : plain s) : ':' ∉ s.data :=
  fun hm => (h.2 ':' hm).2 rfl

lemma plain_not_nl (s : String) (h : plain s) : '\n' ∉ s.data :=
  fun hm => absurd (h.2 '\n' hm).1 (by decide)

lemma plain_no_ws (s : String) (h : plain s) : ∀ c ∈ s.data, isWsChar c = false :=
  fun c hc => (h.2 c hc).1

lemma entry_no_nl (n srv h : String) (hn : '\n' ∉ n.data) (hs : '\n' ∉ srv.data)
    (hh : '\n' ∉ h.data) : '\n' ∉ (idStr n srv ++ ":" ++ h).data := by
  rw [entry_data, idStr_data]
  intro hm
  rcases List.mem_append.mp hm with hm | hm
  · rcases List.mem_append.mp hm with hm | hm
    · exact hn hm
    · rcases List.mem_cons.mp hm with hm | hm
      · exact absurd hm.symm (by decide)
      · exact hs hm
  · rcases List.mem_cons.mp hm with hm | hm
    · exact absurd hm.symm (by decide)
    · exact hh hm

lemma scriptAtServer_eq_idStr (sc : ScriptT) (srv : String) :
    scriptAtServer sc srv = idStr sc.name srv := rfl

lemma scriptAtServer_ne_empty (sc : ScriptT) (srv : String) :
    "" ≠ scriptAtServer sc srv := by
  intro h
  have hd := congrArg String.data h.symm
  rw [scriptAtServer_eq_idStr, idStr_data] at hd
  simp at hd

lemma annotLine_name (srv : String) (sc : ScriptT) (v : String) :
    (annotLine srv sc v).name = sc.name := by
  unfold annotLine
  split_ifs <;> rfl

lemma annotFold_name (srv : String) (lines : List String) (sc : ScriptT) :
    (List.foldl (annotLine srv) sc lines).name = sc.name := by
  induction lines generalizing sc with
  | nil => rfl
  | cons v rest ih => rw [List.foldl_cons, ih, annotLine_name]

lemma jsTrim_nl_entry (e : String) (ht : jsTrim e = e) : jsTrim ("" ++ "\n" ++ e) = e := by
  have hd : ("" ++ "\n" ++ e).data = '\n' :: e.data := by
    simp [String.data_append]
  unfold jsTrim at ht ⊢
  rw [hd, trimChars_cons_ws '\n' e.data (by decide)]
  exact ht

lemma data_pair (e1 e2 : String) : (e1 ++ "\n" ++ e2).data = e1.data ++ '\n' :: e2.data := by
  simp [String.data_append]

lemma jsTrim_pair (e1 e2 : String) (c1 : Char) (t1 : List Char) (h1 : e1.data = c1 :: t1)
    (hc1 : isWsChar c1 = false) (c2 : Char) (t2 : List Char) (h2 : e2.data = c2 :: t2)
    (hlast : ∀ c, e2.data.getLast? = some c → isWsChar c = false) :
    jsTrim (e1 ++ "\n" ++ e2) = e1 ++ "\n" ++ e2 := by
  refine jsTrim_of_ends _ ?_ ?_
  · intro c hc
    rw [data_pair, h1] at hc
    cases hc
    exact hc1
  · intro c hc
    rw [data_pair, List.getLast?_append_cons, h2, List.getLast?_cons_cons, ← h2] at hc
    exact hlast c hc

lemma readLines_pair (e1 e2 : String) (ht : jsTrim (e1 ++ "\n" ++ e2) = e1 ++ "\n" ++ e2)
    (h1 : '\n' ∉ e1.data) (h2 : '\n' ∉ e2.data) :
    readLines (e1 ++ "\n" ++ e2) = [e1, e2] := by
  unfold readLines
  rw [ht]
  unfold jsSplit
  rw [data_pair, splitOnChar_append _ _ _ h1, splitOnChar_not_mem _ _ h2]
  simp [mk_data]

lemma entry_get1_trunc (n srv h1 h2 : String) (hn : ':' ∉ n.data) (hs : ':' ∉ srv.data)
    (hh1 : ':' ∉ h1.data) :
    (jsSplit ':' (idStr n srv ++ ":" ++ (h1 ++ ":" ++ h2))).get? 1 = some h1 := by
  unfold jsSplit
  have hd : (idStr n srv ++ ":" ++ (h1 ++ ":" ++ h2)).data =
      (idStr n srv).data ++ ':' :: (h1.data ++ ':' :: h2.data) := by
    simp [String.data_append]
  rw [hd, splitOnChar_append _ _ _ (colon_not_mem_idStr n srv hn hs),
    splitOnChar_append _ _ _ hh1]
  simp [mk_data]

/-- C8: the per-script update loop of updateHashValues leaves the cache
lines untouched for a script that is on the exemption list or whose
conflict flag is still true (even with lastSyncHash set), and writes the
entry exactly for scripts that are both non-exempt and non-conflicted. -/
theorem claim8_conflicted_not_written (srv : String) (fl : List String)
    (hv : List String) (sc : ScriptT) :
    ((sc.name ∈ fl ∨ sc.conflict = true) → updateEntry srv fl hv sc = hv) ∧
    (sc.name ∉ fl → sc.conflict = false →
      (scriptAtServer sc srv ++ ":" ++ jsOptStr sc.lastSyncHash) ∈ updateEntry srv fl hv sc) := by
  constructor
  · intro h
    unfold updateEntry
    rw [if_neg]
    rintro ⟨hn, hc⟩
    rcases h with h | h
    · exact hn h
    · rw [h] at hc; cases hc
  · intro hn hc
    unfold updateEntry
    rw [if_pos ⟨hn, hc⟩]
    by_cases hex : ∃ v ∈ hv, linePart v = scriptAtServer sc srv
    · rw [if_pos hex]
      obtain ⟨v, hvmem, hveq⟩ := hex
      exact List.mem_map.mpr ⟨v, hvmem, by rw [if_pos hveq]⟩
    · rw [if_neg hex]
      exact List.mem_append_right _ (List.mem_singleton.mpr rfl)

theorem claim8_conflicted_not_written_witness :
    updateEntry "srv" ["ex"] ["x@srv:h"] ⟨"a", true, true, some "h2", false⟩ = ["x@srv:h"] ∧
    ("a@srv:h2" : String) ∈ updateEntry "srv" ["ex"] ["x@srv:h"] ⟨"a", false, true, some "h2", false⟩ := by
  constructor
  · exact (claim8_conflicted_not_written "srv" ["ex"] ["x@srv:h"]
      ⟨"a", true, true, some "h2", false⟩).1 (Or.inr rfl)
  · have h := (claim8_conflicted_not_written "srv" ["ex"] ["x@srv:h"]
      ⟨"a", false, true, some "h2", false⟩).2 (by decide) rfl
    simpa using h

lemma annotate_empty_line (srv : String) (fl : List String) (sc : ScriptT) :
    annotateScript [""] srv fl sc = annotateScript [] srv fl sc := by
  unfold annotateScript
  by_cases h : sc.name ∈ fl
  · rw [if_pos h, if_pos h]
  · rw [if_neg h, if_neg h]
    show annotLine srv sc "" = sc
    unfold annotLine
    rw [if_neg]
    exact fun he => scriptAtServer_ne_empty sc srv (by simpa [linePart, jsSplit, splitOnChar] using he)

/-- C4 counterexample: on the update path a missing cache file is not
lazily created and the batch's hashes are not persisted as if the cache
were empty — updateHashValues returns without writing anything, whereas
the same call on an existing empty cache writes the entry. -/
theorem claim4_counterexample :
    updateHashValues [⟨"a", false, true, some "h1", false⟩] "srv" [] .missing = none ∧
    updateHashValues [⟨"a", false, true, some "h1", false⟩] "srv" [] (.content "") =
      some "a@srv:h1" := by
  constructor
  · rfl
  · decide

/-- C4 amended: on the read path a missing cache file yields the same
annotation as an existing empty cache and lazily creates the file, a
successful read never writes, and any other read failure is a silent
no-op; on the update path any read failure — including a missing file —
is a silent no-op that writes nothing.  No path raises or blocks. -/
theorem claim4_amended (ps : List ScriptT) (srv : String) (fl : List String)
    (hne : ps ≠ []) :
    (readHashValues ps srv fl .missing).write = some "" ∧
    (readHashValues ps srv fl .missing).scripts =
      (readHashValues ps srv fl (.content "")).scripts ∧
    (∀ s : String, (readHashValues ps srv fl (.content s)).write = none) ∧
    readHashValues ps srv fl .ioError = ⟨ps, none⟩ ∧
    updateHashValues ps srv fl .missing = none ∧
    updateHashValues ps srv fl .ioError = none := by
  have hempty : ps.isEmpty = false := by
    cases ps with
    | nil => exact absurd rfl hne
    | cons a t => rfl
  refine ⟨?_, ?_, ?_, ?_, ?_, ?_⟩
  · simp [readHashValues, hempty]
  · have hrl : readLines "" = [""] := rfl
    simp only [readHashValues, hempty, Bool.false_eq_true, if_false, hrl]
    exact List.map_congr_left fun sc _ => (annotate_empty_line srv fl sc).symm
  · intro s
    simp [readHashValues, hempty]
  · simp [readHashValues, hempty]
  · simp [updateHashValues, hempty]
  · simp [updateHashValues, hempty]

theorem claim4_amended_witness :
    (readHashValues [⟨"a", false, true, none, false⟩] "srv" [] .missing).write = some "" :=
  (claim4_amended [⟨"a", false, true, none, false⟩] "srv" [] (by simp)).1

lemma annotLine_match (srv : String) (sc : ScriptT) (v : String)
    (h : linePart v = scriptAtServer sc srv) :
    annotLine srv sc v = { sc with lastSyncHash := (jsSplit ':' v).get? 1 } := by
  unfold annotLine
  rw [if_pos h]

lemma annotLine_no_match (srv : String) (sc : ScriptT) (v : String)
    (h : linePart v ≠ scriptAtServer sc srv) : annotLine srv sc v = sc := by
  unfold annotLine
  rw [if_neg h]

/-- C10: cache-line parsing keeps only the first two ':'-separated fields —
a matching line whose stored hash itself contains ':' yields the part
before that colon (silent truncation) — and when several lines match the
same name@server identity the last matching line determines the
lastSyncHash that is read. -/
theorem claim10_parse_truncates_last_wins (srv h1 h2 : String) (sc : ScriptT)
    (fl : List String) (hnfl : sc.name ∉ fl) (hn : ':' ∉ sc.name.data)
    (hs : ':' ∉ srv.data) (hh1 : ':' ∉ h1.data) :
    (annotateScript [scriptAtServer sc srv ++ ":" ++ (h1 ++ ":" ++ h2)] srv fl
        sc).lastSyncHash = some h1 ∧
    (∀ lines : List String, ∀ line : String, linePart line = scriptAtServer sc srv →
      (annotateScript (lines ++ [line]) srv fl sc).lastSyncHash =
        (jsSplit ':' line).get? 1) := by
  constructor
  · unfold annotateScript
    rw [if_neg hnfl]
    show (annotLine srv sc (scriptAtServer sc srv ++ ":" ++ (h1 ++ ":" ++ h2))).lastSyncHash =
      some h1
    rw [annotLine_match srv sc _
      (by rw [scriptAtServer_eq_idStr, linePart_entry sc.name srv _ hn hs])]
    exact entry_get1_trunc sc.name srv h1 h2 hn hs hh1
  · intro lines line hmatch
    unfold annotateScript
    rw [if_neg hnfl, List.foldl_append]
    show (annotLine srv (List.foldl (annotLine srv) sc lines) line).lastSyncHash =
      (jsSplit ':' line).get? 1
    rw [annotLine_match srv _ line (by
      rw [hmatch, scriptAtServer_eq_idStr, scriptAtServer_eq_idStr, annotFold_name])]

theorem claim10_parse_truncates_last_wins_witness :
    (annotateScript [scriptAtServer ⟨"a", false, true, none, false⟩ "srv" ++ ":" ++
        ("h1" ++ ":" ++ "h2")] "srv" [] ⟨"a", false, true, none, false⟩).lastSyncHash =
      some "h1" :=
  (claim10_parse_truncates_last_wins "srv" "h1" "h2" ⟨"a", false, true, none, false⟩ []
    (by simp) (by decide) (by decide) (by decide)).1

lemma updateEntry_append (srv : String) (fl : List String) (hv : List String)
    (sc : ScriptT) (hn : sc.name ∉ fl) (hc : sc.conflict = false)
    (hnom : ∀ v ∈ hv, linePart v ≠ scriptAtServer sc srv) :
    updateEntry srv fl hv sc =
      hv ++ [scriptAtServer sc srv ++ ":" ++ jsOptStr sc.lastSyncHash] := by
  unfold updateEntry
  rw [if_pos ⟨hn, hc⟩, if_neg (by rintro ⟨v, hv', he⟩; exact hnom v hv' he)]
  congr 1
  rw [List.map_congr_left (fun v hv' => if_neg (hnom v hv'))]
  exact List.map_id hv

lemma updateEntry_single_match (srv : String) (fl : List String) (e : String)
    (sc : ScriptT) (hn : sc.name ∉ fl) (hc : sc.conflict = false)
    (hm : linePart e = scriptAtServer sc srv) :
    updateEntry srv fl [e] sc =
      [scriptAtServer sc srv ++ ":" ++ jsOptStr sc.lastSyncHash] := by
  unfold updateEntry
  rw [if_pos ⟨hn, hc⟩, if_pos ⟨e, by simp, hm⟩]
  simp [hm]

lemma entry_data_cons (n srv h : String) (c : Char) (t : List Char) (hn : n.data = c :: t) :
    (idStr n srv ++ ":" ++ h).data = c :: (t ++ '@' :: srv.data ++ ':' :: h.data) := by
  rw [entry_data, idStr_data, hn]
  simp

lemma c3_step1 (srv h1 : String) (hsrv : plain srv) (hh1 : plain h1) :
    updateHashValues [⟨"a", false, true, some h1, false⟩] srv [] (.content "") =
      some (idStr "a" srv ++ ":" ++ h1) := by
  simp only [updateHashValues, List.isEmpty_cons, Bool.false_eq_true, if_false]
  rw [show readLines "" = [""] from rfl, List.foldl_cons, List.foldl_nil]
  rw [updateEntry_append srv [] [""] ⟨"a", false, true, some h1, false⟩ (by simp) rfl
    (by
      intro v hv
      rw [List.mem_singleton] at hv
      subst hv
      exact scriptAtServer_ne_empty _ srv)]
  show some (jsTrim ("" ++ "\n" ++ (idStr "a" srv ++ ":" ++ h1))) =
    some (idStr "a" srv ++ ":" ++ h1)
  rw [jsTrim_nl_entry _ (jsTrim_entry "a" srv h1 'a' [] rfl rfl (plain_no_ws h1 hh1))]

lemma c3_read1 (srv h1 : String) (hsrv : plain srv) (hh1 : plain h1) :
    (readHashValues [⟨"a", false, true, none, false⟩] srv []
        (.content (idStr "a" srv ++ ":" ++ h1))).scripts =
      [⟨"a", false, true, some h1, false⟩] := by
  simp only [readHashValues, List.isEmpty_cons, Bool.false_eq_true, if_false]
  rw [readLines_single _ (jsTrim_entry "a" srv h1 'a' [] rfl rfl (plain_no_ws h1 hh1))
    (entry_no_nl "a" srv h1 (by decide) (plain_not_nl srv hsrv) (plain_not_nl h1 hh1))]
  simp only [List.map_cons, List.map_nil]
  unfold annotateScript
  rw [if_neg (by simp)]
  show [annotLine srv ⟨"a", false, true, none, false⟩ (idStr "a" srv ++ ":" ++ h1)] = _
  rw [annotLine_match srv ⟨"a", false, true, none, false⟩ _
    (linePart_entry "a" srv h1 (by decide) (plain_not_colon srv hsrv))]
  rw [entry_get1 "a" srv h1 (by decide) (plain_not_colon srv hsrv) (plain_not_colon h1 hh1)]

lemma c3_step2 (srv h1 h2 h3 : String) (hsrv : plain srv) (hh1 : plain h1)
    (hh2 : plain h2) (hh3 : plain h3) :
    updateHashValues
        [⟨"a", false, true, some h2, false⟩, ⟨"b", false, true, some h3, false⟩] srv []
        (.content (idStr "a" srv ++ ":" ++ h1)) =
      some (idStr "a" srv ++ ":" ++ h2 ++ "\n" ++ (idStr "b" srv ++ ":" ++ h3)) := by
  simp only [updateHashValues, List.isEmpty_cons, Bool.false_eq_true, if_false]
  rw [readLines_single _ (jsTrim_entry "a" srv h1 'a' [] rfl rfl (plain_no_ws h1 hh1))
    (entry_no_nl "a" srv h1 (by decide) (plain_not_nl srv hsrv) (plain_not_nl h1 hh1))]
  rw [List.foldl_cons, List.foldl_cons, List.foldl_nil]
  rw [updateEntry_single_match srv [] (idStr "a" srv ++ ":" ++ h1)
    ⟨"a", false, true, some h2, false⟩ (by simp) rfl
    (linePart_entry "a" srv h1 (by decide) (plain_not_colon srv hsrv))]
  rw [updateEntry_append srv [] _ ⟨"b", false, true, some h3, false⟩ (by simp) rfl
    (by
      intro v hv
      rw [List.mem_singleton] at hv
      subst hv
      intro he
      have hlp : linePart (idStr "a" srv ++ ":" ++ h2) = idStr "a" srv :=
        linePart_entry "a" srv h2 (by decide) (plain_not_colon srv hsrv)
      exact idStr_ne "a" "b" srv 'a' 'b' [] [] rfl rfl (by decide) (hlp.symm.trans he))]
  show some (jsTrim (idStr "a" srv ++ ":" ++ h2 ++ "\n" ++ (idStr "b" srv ++ ":" ++ h3))) =
    some (idStr "a" srv ++ ":" ++ h2 ++ "\n" ++ (idStr "b" srv ++ ":" ++ h3))
  rw [jsTrim_pair _ _ 'a' _ (entry_data_cons "a" srv h2 'a' [] rfl) rfl 'b' _
    (entry_data_cons "b" srv h3 'b' [] rfl) (entry_last_not_ws "b" srv h3 (plain_no_ws h3 hh3))]

lemma c3_read2 (srv h2 h3 : String) (hsrv : plain srv) (hh2 : plain h2) (hh3 : plain h3) :
    (readHashValues [⟨"a", false, true, none, false⟩, ⟨"b", false, true, none, false⟩] srv []
        (.content (idStr "a" srv ++ ":" ++ h2 ++ "\n" ++ (idStr "b" srv ++ ":" ++ h3)))).scripts =
      [⟨"a", false, true, some h2, false⟩, ⟨"b", false, true, some h3, false⟩] := by
  simp only [readHashValues, List.isEmpty_cons, Bool.false_eq_true, if_false]
  rw [readLines_pair _ _
    (jsTrim_pair _ _ 'a' _ (entry_data_cons "a" srv h2 'a' [] rfl) rfl 'b' _
      (entry_data_cons "b" srv h3 'b' [] rfl)
      (entry_last_not_ws "b" srv h3 (plain_no_ws h3 hh3)))
    (entry_no_nl "a" srv h2 (by decide) (plain_not_nl srv hsrv) (plain_not_nl h2 hh2))
    (entry_no_nl "b" srv h3 (by decide) (plain_not_nl srv hsrv) (plain_not_nl h3 hh3))]
  simp only [List.map_cons, List.map_nil]
  have ha : annotateScript [idStr "a" srv ++ ":" ++ h2, idStr "b" srv ++ ":" ++ h3] srv []
      ⟨"a", false, true, none, false⟩ = ⟨"a", false, true, some h2, false⟩ := by
    unfold annotateScript
    rw [if_neg (by simp)]
    rw [List.foldl_cons, List.foldl_cons, List.foldl_nil]
    rw [annotLine_match srv ⟨"a", false, true, none, false⟩ _
      (linePart_entry "a" srv h2 (by decide) (plain_not_colon srv hsrv))]
    rw [entry_get1 "a" srv h2 (by decide) (plain_not_colon srv hsrv) (plain_not_colon h2 hh2)]
    rw [annotLine_no_match srv ⟨"a", false, true, some h2, false⟩ _
      (by
        intro he
        have hlp : linePart (idStr "b" srv ++ ":" ++ h3) = idStr "b" srv :=
          linePart_entry "b" srv h3 (by decide) (plain_not_colon srv hsrv)
        exact idStr_ne "b" "a" srv 'b' 'a' [] [] rfl rfl (by decide) (hlp.symm.trans he))]
  have hb : annotateScript [idStr "a" srv ++ ":" ++ h2, idStr "b" srv ++ ":" ++ h3] srv []
      ⟨"b", false, true, none, false⟩ = ⟨"b", false, true, some h3, false⟩ := by
    unfold annotateScript
    rw [if_neg (by simp)]
    rw [List.foldl_cons, List.foldl_cons, List.foldl_nil]
    rw [annotLine_no_match srv ⟨"b", false, true, none, false⟩ _
      (by
        intro he
        have hlp : linePart (idStr "a" srv ++ ":" ++ h2) = idStr "a" srv :=
          linePart_entry "a" srv h2 (by decide) (plain_not_colon srv hsrv)
        exact idStr_ne "a" "b" srv 'a' 'b' [] [] rfl rfl (by decide) (hlp.symm.trans he))]
    rw [annotLine_match srv ⟨"b", false, true, none, false⟩ _
      (linePart_entry "b" srv h3 (by decide) (plain_not_colon srv hsrv))]
    rw [entry_get1 "b" srv h3 (by decide) (plain_not_colon srv hsrv) (plain_not_colon h3 hh3)]
  rw [ha, hb]

/-- C3: cache round-trip and merge law.  Starting from an existing empty
cache, updating with script "a" (non-exempt, conflict false) carrying hash
h1 writes exactly the entry a@srv:h1; reading it back annotates "a" with
lastSyncHash h1.  A second update with "a"↦h2 and "b"↦h3 replaces the
matching "a" entry in place and appends the new "b" entry; reading back
yields h2 for "a" and h3 for "b", and the resulting file holds exactly one
entry per (name, server) identity. -/
theorem claim3_cache_roundtrip (srv h1 h2 h3 : String)
    (hsrv : plain srv) (hh1 : plain h1) (hh2 : plain h2) (hh3 : plain h3) :
    updateHashValues [⟨"a", false, true, some h1, false⟩] srv [] (.content "") =
      some (idStr "a" srv ++ ":" ++ h1) ∧
    (readHashValues [⟨"a", false, true, none, false⟩] srv []
        (.content (idStr "a" srv ++ ":" ++ h1))).scripts =
      [⟨"a", false, true, some h1, false⟩] ∧
    updateHashValues
        [⟨"a", false, true, some h2, false⟩, ⟨"b", false, true, some h3, false⟩] srv []
        (.content (idStr "a" srv ++ ":" ++ h1)) =
      some (idStr "a" srv ++ ":" ++ h2 ++ "\n" ++ (idStr "b" srv ++ ":" ++ h3)) ∧
    (readHashValues [⟨"a", false, true, none, false⟩, ⟨"b", false, true, none, false⟩] srv []
        (.content (idStr "a" srv ++ ":" ++ h2 ++ "\n" ++ (idStr "b" srv ++ ":" ++ h3)))).scripts =
      [⟨"a", false, true, some h2, false⟩, ⟨"b", false, true, some h3, false⟩] ∧
    (readLines (idStr "a" srv ++ ":" ++ h2 ++ "\n" ++ (idStr "b" srv ++ ":" ++ h3))).map
        linePart = [idStr "a" srv, idStr "b" srv] ∧
    idStr "a" srv ≠ idStr "b" srv := by
  refine ⟨c3_step1 srv h1 hsrv hh1, c3_read1 srv h1 hsrv hh1,
    c3_step2 srv h1 h2 h3 hsrv hh1 hh2 hh3, c3_read2 srv h2 h3 hsrv hh2 hh3, ?_,
    idStr_ne "a" "b" srv 'a' 'b' [] [] rfl rfl (by decide)⟩
  rw [readLines_pair _ _
    (jsTrim_pair _ _ 'a' _ (entry_data_cons "a" srv h2 'a' [] rfl) rfl 'b' _
      (entry_data_cons "b" srv h3 'b' [] rfl)
      (entry_last_not_ws "b" srv h3 (plain_no_ws h3 hh3)))
    (entry_no_nl "a" srv h2 (by decide) (plain_not_nl srv hsrv) (plain_not_nl h2 hh2))
    (entry_no_nl "b" srv h3 (by decide) (plain_not_nl srv hsrv) (plain_not_nl h3 hh3))]
  simp only [List.map_cons, List.map_nil]
  rw [linePart_entry "a" srv h2 (by decide) (plain_not_colon srv hsrv),
    linePart_entry "b" srv h3 (by decide) (plain_not_colon srv hsrv)]

theorem claim3_cache_roundtrip_witness :
    updateHashValues [⟨"a", false, true, some "h1", false⟩] "srv" [] (.content "") =
      some (idStr "a" "srv" ++ ":" ++ "h1") :=
  (claim3_cache_roundtrip "srv" "h1" "h2" "h3" (by unfold plain; decide)
    (by unfold plain; decide) (by unfold plain; decide) (by unfold plain; decide)).1
